import Mathlib

/-!
Shallow embedding of `gcs-signed-url-example.py` (Google Cloud Storage
signed-URL example) together with models of the library primitives it
calls: `base64.b64encode` (RFC 4648 standard alphabet, padded),
`md5.new(...).digest()`, `Crypto.Hash.SHA256`, and
`Crypto.Signature.PKCS1_v1_5` over `Crypto.PublicKey.RSA` (deterministic
EMSA-PKCS1-v1_5 encoding followed by the RSA private-key operation).

Byte strings (Python 2 `str`) are modelled as `List Nat` with every
entry below 256; machine words are `Nat` reduced modulo `2 ^ 32`
explicitly.  Fallible library calls are modelled with `Option`
(`none` models a raised exception).
-/

/-! ## Byte-string primitives (`Crypto.Util.number`) -/

/-- Big-endian integer-to-bytes conversion producing exactly `k` bytes
(the `long_to_bytes` primitive used by PyCrypto, fixed width). -/
def i2osp : Nat → Nat → List Nat
  | 0, _ => []
  | k + 1, n => i2osp k (n / 256) ++ [n % 256]

/-- Big-endian bytes-to-integer conversion (`bytes_to_long`). -/
def os2ip (bs : List Nat) : Nat := bs.foldl (fun acc b => acc * 256 + b) 0

/-- Fuel-driven byte-length computation; fuel is consumed once per
base-256 digit, so any fuel of at least the digit count is enough. -/
def byteLenAux : Nat → Nat → Nat
  | 0, _ => 0
  | fuel + 1, n => if n = 0 then 0 else byteLenAux fuel (n / 256) + 1

/-- Number of bytes needed to store `n`: the modulus size used by
PyCrypto when picking the PKCS#1 v1.5 encoded-message length. -/
def byteLen (n : Nat) : Nat := byteLenAux n n

/-! ## Standard base64 (`base64.b64encode`) -/

/-- The RFC 4648 standard base64 alphabet, in index order. -/
def b64Table : List Char :=
  "ABCDEFGHIJKLMNOPQRSTUVWXYZabcdefghijklmnopqrstuvwxyz0123456789+/".data

/-- Character for a 6-bit group. -/
def b64Char (i : Nat) : Char := b64Table.getD i '*'

/-- Index of a base64 character in the standard alphabet. -/
def b64Index (c : Char) : Nat := b64Table.indexOf c

/-- Standard padded base64 encoding of a byte list, three bytes at a
time, exactly as `base64.b64encode` produces it. -/
def b64encodeList : List Nat → List Char
  | [] => []
  | [a] => [b64Char (a / 4), b64Char (a % 4 * 16), '=', '=']
  | [a, b] => [b64Char (a / 4), b64Char (a % 4 * 16 + b / 16), b64Char (b % 16 * 4), '=']
  | a :: b :: c :: rest =>
      b64Char (a / 4) :: b64Char (a % 4 * 16 + b / 16) ::
      b64Char (b % 16 * 4 + c / 64) :: b64Char (c % 64) :: b64encodeList rest

/-- Standard base64 decoding, four characters at a time, honouring `=`
padding (the decoder a verifier would apply to the signature). -/
def b64decodeList : List Char → List Nat
  | c1 :: c2 :: c3 :: c4 :: rest =>
      if c3 = '=' then [b64Index c1 * 4 + b64Index c2 / 16]
      else if c4 = '=' then
        [b64Index c1 * 4 + b64Index c2 / 16, b64Index c2 % 16 * 16 + b64Index c3 / 4]
      else
        (b64Index c1 * 4 + b64Index c2 / 16) ::
        (b64Index c2 % 16 * 16 + b64Index c3 / 4) ::
        (b64Index c3 % 4 * 64 + b64Index c4) :: b64decodeList rest
  | _ => []

/-- `base64.b64encode` on bytes, returning a Python `str`. -/
def b64encode (bs : List Nat) : String := String.mk (b64encodeList bs)

/-- A standard base64 decoder on a Python `str`. -/
def b64decode (s : String) : List Nat := b64decodeList s.data

/-! ## MD5 (`md5.new(data).digest()`) -/

/-- Truncation to a 32-bit word. -/
def w32 (n : Nat) : Nat := n % 4294967296

/-- 32-bit left rotation (argument below `2 ^ 32`). -/
def rotl32 (x s : Nat) : Nat := w32 (x <<< s ||| x >>> (32 - s))

/-- 32-bit right rotation (argument below `2 ^ 32`). -/
def rotr32 (x s : Nat) : Nat := w32 (x >>> s ||| x <<< (32 - s))

/-- Little-endian 32-bit words from bytes. -/
def wordsLE : List Nat → List Nat
  | a :: b :: c :: d :: rest => (a + 256 * (b + 256 * (c + 256 * d))) :: wordsLE rest
  | _ => []

/-- Big-endian 32-bit words from bytes. -/
def wordsBE : List Nat → List Nat
  | a :: b :: c :: d :: rest => (((a * 256 + b) * 256 + c) * 256 + d) :: wordsBE rest
  | _ => []

/-- Split a byte list into 64-byte blocks (fuel-driven). -/
def chunksOf64 : Nat → List Nat → List (List Nat)
  | 0, _ => []
  | _ + 1, [] => []
  | fuel + 1, l => l.take 64 :: chunksOf64 fuel (l.drop 64)

/-- The 64 MD5 sine-derived round constants. -/
def md5K : List Nat :=
  [3614090360, 3905402710, 606105819, 3250441966,
   4118548399, 1200080426, 2821735955, 4249261313,
   1770035416, 2336552879, 4294925233, 2304563134,
   1804603682, 4254626195, 2792965006, 1236535329,
   4129170786, 3225465664, 643717713, 3921069994,
   3593408605, 38016083, 3634488961, 3889429448,
   568446438, 3275163606, 4107603335, 1163531501,
   2850285829, 4243563512, 1735328473, 2368359562,
   4294588738, 2272392833, 1839030562, 4259657740,
   2763975236, 1272893353, 4139469664, 3200236656,
   681279174, 3936430074, 3572445317, 76029189,
   3654602809, 3873151461, 530742520, 3299628645,
   4096336452, 1126891415, 2878612391, 4237533241,
   1700485571, 2399980690, 4293915773, 2240044497,
   1873313359, 4264355552, 2734768916, 1309151649,
   4149444226, 3174756917, 718787259, 3951481745]

/-- The 64 MD5 per-round left-rotation amounts. -/
def md5S : List Nat :=
  [7, 12, 17, 22, 7, 12, 17, 22, 7, 12, 17, 22, 7, 12, 17, 22,
   5, 9, 14, 20, 5, 9, 14, 20, 5, 9, 14, 20, 5, 9, 14, 20,
   4, 11, 16, 23, 4, 11, 16, 23, 4, 11, 16, 23, 4, 11, 16, 23,
   6, 10, 15, 21, 6, 10, 15, 21, 6, 10, 15, 21, 6, 10, 15, 21]

/-- One MD5 operation: round function, message-word pick, rotate, mix. -/
def md5Step (m st : List Nat) (i : Nat) : List Nat :=
  let a := st.getD 0 0
  let b := st.getD 1 0
  let c := st.getD 2 0
  let d := st.getD 3 0
  let f :=
    if i < 16 then b &&& c ||| (b ^^^ 0xffffffff) &&& d
    else if i < 32 then d &&& b ||| (d ^^^ 0xffffffff) &&& c
    else if i < 48 then b ^^^ c ^^^ d
    else c ^^^ (b ||| (d ^^^ 0xffffffff))
  let g :=
    if i < 16 then i
    else if i < 32 then (5 * i + 1) % 16
    else if i < 48 then (3 * i + 5) % 16
    else 7 * i % 16
  let rotated := rotl32 (w32 (a + f + md5K.getD i 0 + m.getD g 0)) (md5S.getD i 0)
  [d, w32 (b + rotated), b, c]

/-- MD5 compression of one 64-byte block into the running state. -/
def md5Compress (st block : List Nat) : List Nat :=
  let m := wordsLE block
  let st2 := (List.range 64).foldl (md5Step m) st
  List.zipWith (fun x y => w32 (x + y)) st st2

/-- MD5 padding: `0x80`, zeros to 56 mod 64, 64-bit little-endian bit
length. -/
def md5Pad (msg : List Nat) : List Nat :=
  msg ++ 128 :: List.replicate ((119 - msg.length % 64) % 64) 0 ++
    (i2osp 8 (8 * msg.length % 18446744073709551616)).reverse

/-- The 16-byte MD5 digest of a byte string. -/
def md5 (msg : List Nat) : List Nat :=
  let padded := md5Pad msg
  let st := (chunksOf64 padded.length padded).foldl md5Compress
    [1732584193, 4023233417, 2562383102, 271733878]
  st.foldr (fun w acc => (i2osp 4 w).reverse ++ acc) []

/-! ## SHA-256 (`Crypto.Hash.SHA256`) -/

/-- The 64 SHA-256 round constants. -/
def sha256K : List Nat :=
  [1116352408, 1899447441, 3049323471, 3921009573,
   961987163, 1508970993, 2453635748, 2870763221,
   3624381080, 310598401, 607225278, 1426881987,
   1925078388, 2162078206, 2614888103, 3248222580,
   3835390401, 4022224774, 264347078, 604807628,
   770255983, 1249150122, 1555081692, 1996064986,
   2554220882, 2821834349, 2952996808, 3210313671,
   3336571891, 3584528711, 113926993, 338241895,
   666307205, 773529912, 1294757372, 1396182291,
   1695183700, 1986661051, 2177026350, 2456956037,
   2730485921, 2820302411, 3259730800, 3345764771,
   3516065817, 3600352804, 4094571909, 275423344,
   430227734, 506948616, 659060556, 883997877,
   958139571, 1322822218, 1537002063, 1747873779,
   1955562222, 2024104815, 2227730452, 2361852424,
   2428436474, 2756734187, 3204031479, 3329325298]

/-- SHA-256 initial state. -/
def sha256InitState : List Nat :=
  [1779033703, 3144134277, 1013904242, 2773480762,
   1359893119, 2600822924, 528734635, 1541459225]

/-- Message-schedule extension; the list holds the schedule so far in
reverse (most recent word first). -/
def sha256Extend : Nat → List Nat → List Nat
  | 0, rws => rws
  | fuel + 1, rws =>
    let w2 := rws.getD 1 0
    let w7 := rws.getD 6 0
    let w15 := rws.getD 14 0
    let w16 := rws.getD 15 0
    let s0 := rotr32 w15 7 ^^^ rotr32 w15 18 ^^^ w15 >>> 3
    let s1 := rotr32 w2 17 ^^^ rotr32 w2 19 ^^^ w2 >>> 10
    sha256Extend fuel (w32 (w16 + s0 + w7 + s1) :: rws)

/-- One SHA-256 round over the 8-word state. -/
def sha256Step (st : List Nat) (kw : Nat × Nat) : List Nat :=
  let a := st.getD 0 0
  let b := st.getD 1 0
  let c := st.getD 2 0
  let d := st.getD 3 0
  let e := st.getD 4 0
  let f := st.getD 5 0
  let g := st.getD 6 0
  let h := st.getD 7 0
  let bigS1 := rotr32 e 6 ^^^ rotr32 e 11 ^^^ rotr32 e 25
  let ch := e &&& f ^^^ (e ^^^ 0xffffffff) &&& g
  let t1 := w32 (h + bigS1 + ch + kw.1 + kw.2)
  let bigS0 := rotr32 a 2 ^^^ rotr32 a 13 ^^^ rotr32 a 22
  let maj := a &&& b ^^^ a &&& c ^^^ b &&& c
  let t2 := w32 (bigS0 + maj)
  [w32 (t1 + t2), a, b, c, w32 (d + t1), e, f, g]

/-- SHA-256 compression of one 64-byte block. -/
def sha256Compress (st block : List Nat) : List Nat :=
  let w16 := wordsBE block
  let w := (sha256Extend 48 w16.reverse).reverse
  let st2 := (sha256K.zip w).foldl sha256Step st
  List.zipWith (fun x y => w32 (x + y)) st st2

/-- SHA-256 padding: `0x80`, zeros to 56 mod 64, 64-bit big-endian bit
length. -/
def sha256Pad (msg : List Nat) : List Nat :=
  msg ++ 128 :: List.replicate ((119 - msg.length % 64) % 64) 0 ++
    i2osp 8 (8 * msg.length % 18446744073709551616)

/-- The 32-byte SHA-256 digest of a byte string. -/
def sha256 (msg : List Nat) : List Nat :=
  let padded := sha256Pad msg
  let st := (chunksOf64 padded.length padded).foldl sha256Compress sha256InitState
  st.foldr (fun w acc => i2osp 4 w ++ acc) []

/-! ## RSA PKCS#1 v1.5 (`Crypto.Signature.PKCS1_v1_5`) -/

/-- A PyCrypto RSA private key: modulus and private exponent. -/
structure RSAKey where
  n : Nat
  d : Nat

/-- The fixed ASN.1 DigestInfo header for SHA-256 used by
EMSA-PKCS1-v1_5. -/
def sha256DigestInfo : List Nat :=
  [48, 49, 48, 13, 6, 9, 96, 134, 72, 1, 101, 3, 4, 2, 1, 5, 0, 4, 32]

/-- EMSA-PKCS1-v1_5 encoding of a SHA-256 digest into `emLen` bytes:
`00 01 FF..FF 00 DigestInfo digest`; fails (exception in the library)
when the modulus is too small for eight padding bytes. -/
def emsaEncode (digest : List Nat) (emLen : Nat) : Option (List Nat) :=
  let t := sha256DigestInfo ++ digest
  if emLen < t.length + 11 then none
  else some (0 :: 1 :: (List.replicate (emLen - t.length - 3) 255 ++ 0 :: t))

/-- `PKCS1_v1_5.new(key).sign(hash)`: deterministic EMSA encoding then
the RSA private-key operation `m ^ d mod n`, serialized to the modulus
length. -/
def pkcs1Sign (key : RSAKey) (digest : List Nat) : Option (List Nat) :=
  let k := byteLen key.n
  (emsaEncode digest k).map fun em => i2osp k (os2ip em ^ key.d % key.n)

/-- PKCS#1 v1.5 verification against the public key `(n, e)`:
re-encode the digest and compare with the RSA public-key operation on
the signature. -/
def rsaVerify (n e : Nat) (digest sig : List Nat) : Bool :=
  let k := byteLen n
  match emsaEncode digest k with
  | none => false
  | some em => i2osp k (os2ip sig ^ e % n) == em

/-! ## Ambient collaborators: HTTP transport and wall clock -/

/-- The request an HTTP verb call hands to the transport. -/
structure HttpRequest where
  method : String
  url : String
  params : List (String × String)
  headers : List (String × String)
  body : List Nat

/-- The transport's answer. -/
structure HttpResponse where
  status : Nat
  content : List Nat

/-- A `requests.Session`: an abstract transport executing a request. -/
structure Session where
  send : HttpRequest → HttpResponse

/-- A `datetime.datetime` value: whole seconds since the epoch plus a
microsecond part below one million.  `timetuple()` keeps only the
seconds, and `time.mktime` of that tuple returns them, so
`int(time.mktime(dt.timetuple()))` is modelled by the `sec` field. -/
structure PyDatetime where
  sec : Int
  usec : Nat

/-- Bytes of a Python 2 `str` (its characters are its bytes). -/
def strBytes (s : String) : List Nat := s.data.map Char.toNat

/-! ## The URL signer (`gcs-signed-url-example.py`) -/

/-- The module-level Google Cloud Storage API endpoint constant. -/
def GCS_API_ENDPOINT : String := "https://storage.googleapis.com"

/-- State of a `CloudStorageURLSigner` after construction. -/
structure CloudStorageURLSigner where
  key : RSAKey
  client_id_email : String
  gcs_api_endpoint : String
  expiration : Int
  session : Session

namespace CloudStorageURLSigner

/-- `__init__`: stores key, identity and endpoint; defaults the
expiration to `datetime.datetime.now() + timedelta(days=1)` and always
truncates it through `int(time.mktime(·.timetuple()))`; defaults the
session to a fresh `requests.Session()`.  The ambient clock reading and
the fresh session are passed explicitly.  No argument is validated. -/
def init (key : RSAKey) (client_id_email gcs_api_endpoint : String)
    (expiration : Option PyDatetime) (session : Option Session)
    (now : PyDatetime) (freshSession : Session) : CloudStorageURLSigner :=
  let exp0 := expiration.getD { sec := now.sec + 86400, usec := now.usec }
  { key := key
    client_id_email := client_id_email
    gcs_api_endpoint := gcs_api_endpoint
    expiration := exp0.sec
    session := session.getD freshSession }

/-- `_Base64Sign`: SHA-256 the plaintext, sign with PKCS#1 v1.5, then
base64-encode the signature. -/
def Base64Sign (s : CloudStorageURLSigner) (plaintext : String) : Option String :=
  (pkcs1Sign s.key (sha256 (strBytes plaintext))).map b64encode

/-- `_MakeSignatureString`: the canonical string
verb, content_md5, content_type, expiration, resource joined by
newlines, with the expiration rendered in decimal. -/
def MakeSignatureString (s : CloudStorageURLSigner)
    (verb path content_md5 content_type : String) : String :=
  verb ++ "\n" ++ content_md5 ++ "\n" ++ content_type ++ "\n" ++
    toString s.expiration ++ "\n" ++ path

/-- `_MakeUrl`: base URL is endpoint followed by path; query parameters
are the three fixed keys with identity, decimal expiration and the
base64 signature of the canonical string. -/
def MakeUrl (s : CloudStorageURLSigner)
    (verb path content_type content_md5 : String) :
    Option (String × List (String × String)) :=
  let base_url := s.gcs_api_endpoint ++ path
  let signature_string := s.MakeSignatureString verb path content_md5 content_type
  (s.Base64Sign signature_string).map fun signature_signed =>
    (base_url,
     [("GoogleAccessId", s.client_id_email),
      ("Expires", toString s.expiration),
      ("Signature", signature_signed)])

/-- `Get`: signed GET request issued through the session.  The state of
the signer is threaded explicitly; the method body never writes it. -/
def Get (s : CloudStorageURLSigner) (path : String) :
    Option (HttpRequest × HttpResponse) × CloudStorageURLSigner :=
  match s.MakeUrl "GET" path "" "" with
  | none => (none, s)
  | some (base_url, query_params) =>
    let req : HttpRequest :=
      { method := "GET", url := base_url, params := query_params,
        headers := [], body := [] }
    (some (req, s.session.send req), s)

/-- `Put`: computes the base64 MD5 content digest, signs it inside the
canonical string, and issues a PUT carrying Content-Type,
Content-Length, Content-MD5 and the body. -/
def Put (s : CloudStorageURLSigner) (path content_type : String)
    (data : List Nat) :
    Option (HttpRequest × HttpResponse) × CloudStorageURLSigner :=
  let md5_digest := b64encode (md5 data)
  match s.MakeUrl "PUT" path content_type md5_digest with
  | none => (none, s)
  | some (base_url, query_params) =>
    let req : HttpRequest :=
      { method := "PUT", url := base_url, params := query_params,
        headers := [("Content-Type", content_type),
                    ("Content-Length", toString data.length),
                    ("Content-MD5", md5_digest)],
        body := data }
    (some (req, s.session.send req), s)

/-- `Delete`: signed DELETE request issued through the session. -/
def Delete (s : CloudStorageURLSigner) (path : String) :
    Option (HttpRequest × HttpResponse) × CloudStorageURLSigner :=
  match s.MakeUrl "DELETE" path "" "" with
  | none => (none, s)
  | some (base_url, query_params) =>
    let req : HttpRequest :=
      { method := "DELETE", url := base_url, params := query_params,
        headers := [], body := [] }
    (some (req, s.session.send req), s)

end CloudStorageURLSigner

/-- Number of newline characters in a string. -/
def newlineCount (s : String) : Nat := s.data.count '\n'

/-- A concrete transport used by concrete instantiations. -/
def exampleSession : Session := { send := fun _ => { status := 200, content := [] } }

/-- A concrete signer matching the spec's worked example
(identity `test@ex.com`, expiration `1893456000`). -/
def exampleSigner : CloudStorageURLSigner :=
  { key := { n := 1, d := 1 }
    client_id_email := "test@ex.com"
    gcs_api_endpoint := GCS_API_ENDPOINT
    expiration := 1893456000
    session := exampleSession }

/-- The EMSA-PKCS1-v1_5 encoding of the empty digest into 30 bytes;
with modulus `256 ^ 29` and private exponent 1 it is its own
signature, giving a fully concrete signing example. -/
def emExample : List Nat :=
  [0, 1, 255, 255, 255, 255, 255, 255, 255, 255, 0] ++ sha256DigestInfo

/-! ## Helper lemmas: decimal renderings contain no newline -/

theorem data_newline_string : "\n".data = ['\n'] := rfl

theorem digitChar_ne_newline (n : Nat) : Nat.digitChar n ≠ '\n' := by
  rcases Nat.lt_or_ge n 16 with h | h
  · interval_cases n <;> decide
  · unfold Nat.digitChar
    repeat rw [if_neg (by omega)]
    decide

theorem toDigitsCore_no_newline (b : Nat) :
    ∀ (fuel n : Nat) (ds : List Char), '\n' ∉ ds →
      '\n' ∉ Nat.toDigitsCore b fuel n ds := by
  intro fuel
  induction fuel with
  | zero => intro n ds h; simpa [Nat.toDigitsCore] using h
  | succ fuel ih =>
    intro n ds h
    simp only [Nat.toDigitsCore]
    split
    · intro hmem
      rcases List.mem_cons.mp hmem with h1 | h1
      · exact digitChar_ne_newline _ h1.symm
      · exact h h1
    · refine ih _ _ ?_
      intro hmem
      rcases List.mem_cons.mp hmem with h1 | h1
      · exact digitChar_ne_newline _ h1.symm
      · exact h h1

theorem natRepr_no_newline (n : Nat) : '\n' ∉ (Nat.repr n).data := by
  show '\n' ∉ Nat.toDigits 10 n
  exact toDigitsCore_no_newline 10 (n + 1) n [] (by simp)

theorem toString_int_no_newline (i : Int) : '\n' ∉ (toString i).data := by
  cases i with
  | ofNat m => exact natRepr_no_newline m
  | negSucc m =>
    show '\n' ∉ ("-" ++ Nat.repr (m + 1)).data
    rw [String.data_append]
    intro hmem
    rcases List.mem_append.mp hmem with h1 | h1
    · simp at h1
    · exact natRepr_no_newline (m + 1) h1

/-- Decomposition of the canonical string into its five fields. -/
theorem makeSignatureString_data (s : CloudStorageURLSigner)
    (verb path content_md5 content_type : String) :
    (s.MakeSignatureString verb path content_md5 content_type).data =
      verb.data ++ '\n' :: (content_md5.data ++ '\n' :: (content_type.data ++
        '\n' :: ((toString s.expiration).data ++ '\n' :: path.data))) := by
  simp [CloudStorageURLSigner.MakeSignatureString, String.data_append,
    data_newline_string]

theorem intercalate_five (sep a b c d e : String) :
    String.intercalate sep [a, b, c, d, e] =
      a ++ sep ++ b ++ sep ++ c ++ sep ++ d ++ sep ++ e := rfl

/-- C1: for every verb, path, contentMD5 and contentType,
`_MakeSignatureString` returns VERB, CONTENT_MD5, CONTENT_TYPE,
EXPIRATION, RESOURCE_PATH joined by single newlines in that order, with
EXPIRATION the decimal rendering of the signer's expiration and the
path passed through verbatim; in particular, at expiration 1893456000,
verb GET, path /bucket/object.txt and empty contentType/contentMD5 the
output is exactly the spec's example string. -/
theorem makeSignatureString_spec :
    (∀ (s : CloudStorageURLSigner) (verb path content_md5 content_type : String),
      s.MakeSignatureString verb path content_md5 content_type =
        String.intercalate "\n"
          [verb, content_md5, content_type, toString s.expiration, path]) ∧
    exampleSigner.MakeSignatureString "GET" "/bucket/object.txt" "" "" =
      "GET\n\n\n1893456000\n/bucket/object.txt" := by
  constructor
  · intro s verb path content_md5 content_type
    rw [intercalate_five]
    rfl
  · rfl

/-- C5 counterexample: a verb containing a newline makes the canonical
string contain five newlines, not four. -/
theorem makeSignatureString_newlines_counterexample :
    ¬ newlineCount
        (exampleSigner.MakeSignatureString "GET\nGET" "/bucket/object.txt" "" "") = 4 := by
  decide

/-- C5 (amended): when the four string inputs contain no newline
character, the canonical string contains exactly four newlines and the
five fields appear in the fixed order verb, contentMD5, contentType,
expiration, path. -/
theorem makeSignatureString_four_newlines
    (s : CloudStorageURLSigner) (verb path content_md5 content_type : String)
    (hv : '\n' ∉ verb.data) (hm : '\n' ∉ content_md5.data)
    (hc : '\n' ∉ content_type.data) (hp : '\n' ∉ path.data) :
    newlineCount (s.MakeSignatureString verb path content_md5 content_type) = 4 ∧
    (s.MakeSignatureString verb path content_md5 content_type).data =
      verb.data ++ '\n' :: (content_md5.data ++ '\n' :: (content_type.data ++
        '\n' :: ((toString s.expiration).data ++ '\n' :: path.data))) := by
  refine ⟨?_, makeSignatureString_data ..⟩
  unfold newlineCount
  rw [makeSignatureString_data]
  simp [List.count_append, List.count_cons,
    List.count_eq_zero.mpr hv, List.count_eq_zero.mpr hm,
    List.count_eq_zero.mpr hc, List.count_eq_zero.mpr hp,
    List.count_eq_zero.mpr (toString_int_no_newline s.expiration)]

theorem makeSignatureString_four_newlines_witness :
    '\n' ∉ "GET".data ∧
    newlineCount (exampleSigner.MakeSignatureString "GET" "/bucket/object.txt" "" "") = 4 :=
  ⟨by decide,
   (makeSignatureString_four_newlines exampleSigner "GET" "/bucket/object.txt" "" ""
     (by decide) (by decide) (by decide) (by decide)).1⟩

/-- C7 counterexample: constructing a signer with the empty identity
string succeeds and stores the empty identity; no validation happens
and no ConfigurationError exists in the code. -/
theorem init_empty_identity_counterexample :
    CloudStorageURLSigner.init { n := 1, d := 1 } "" GCS_API_ENDPOINT none none
        { sec := 0, usec := 0 } exampleSession =
      { key := { n := 1, d := 1 }, client_id_email := "",
        gcs_api_endpoint := GCS_API_ENDPOINT, expiration := 86400,
        session := exampleSession } := rfl

/-- C7 (amended): construction never fails: for every key (present,
absent or malformed makes no difference to `__init__`, which performs
no validation) and every identity string including the empty string,
the constructor returns normally and stores the arguments verbatim. -/
theorem init_never_fails (key : RSAKey) (client_id_email gcs_api_endpoint : String)
    (expiration : Option PyDatetime) (session : Option Session)
    (now : PyDatetime) (freshSession : Session) :
    (CloudStorageURLSigner.init key client_id_email gcs_api_endpoint expiration
        session now freshSession).key = key ∧
    (CloudStorageURLSigner.init key client_id_email gcs_api_endpoint expiration
        session now freshSession).client_id_email = client_id_email ∧
    (CloudStorageURLSigner.init key client_id_email gcs_api_endpoint expiration
        session now freshSession).gcs_api_endpoint = gcs_api_endpoint ∧
    (CloudStorageURLSigner.init key client_id_email gcs_api_endpoint expiration
        session now freshSession).session = session.getD freshSession ∧
    (CloudStorageURLSigner.init key client_id_email gcs_api_endpoint expiration
        session now freshSession).expiration =
      (expiration.getD { sec := now.sec + 86400, usec := now.usec }).sec :=
  ⟨rfl, rfl, rfl, rfl, rfl⟩

/-- C8: when no expiration argument is supplied, the stored expiration
is the construction-time clock reading plus 24 hours (86400 seconds),
truncated to whole Unix seconds (the microsecond part of the clock is
dropped by the `timetuple`/`mktime` round trip). -/
theorem init_default_expiration (key : RSAKey)
    (client_id_email gcs_api_endpoint : String) (session : Option Session)
    (now : PyDatetime) (freshSession : Session) :
    (CloudStorageURLSigner.init key client_id_email gcs_api_endpoint none
        session now freshSession).expiration = now.sec + 86400 := rfl

/-! ## Base64 lemmas -/

theorem b64Char_mem : ∀ e < 64, b64Char e ∈ b64Table := by decide

theorem b64Char_ne_pad : ∀ e < 64, b64Char e ≠ '=' := by decide

theorem b64Index_b64Char : ∀ e < 64, b64Index (b64Char e) = e := by decide

theorem dash_not_mem_b64Table : '-' ∉ b64Table ∧ '_' ∉ b64Table := by decide

theorem i2osp_bytes_lt : ∀ (k v : Nat), ∀ b ∈ i2osp k v, b < 256 := by
  intro k
  induction k with
  | zero => intro v b hb; simp [i2osp] at hb
  | succ k ih =>
    intro v b hb
    simp only [i2osp] at hb
    rcases List.mem_append.mp hb with h | h
    · exact ih _ b h
    · simp at h; omega

theorem b64_roundtripList : ∀ bs : List Nat, (∀ x ∈ bs, x < 256) →
    b64decodeList (b64encodeList bs) = bs
  | [], _ => rfl
  | [a], h => by
    have ha : a < 256 := h a (by simp)
    simp [b64encodeList, b64decodeList,
      b64Index_b64Char (a / 4) (by omega), b64Index_b64Char (a % 4 * 16) (by omega)]
    omega
  | [a, b], h => by
    have ha : a < 256 := h a (by simp)
    have hb : b < 256 := h b (by simp)
    simp [b64encodeList, b64decodeList, b64Char_ne_pad (b % 16 * 4) (by omega),
      b64Index_b64Char (a / 4) (by omega),
      b64Index_b64Char (a % 4 * 16 + b / 16) (by omega),
      b64Index_b64Char (b % 16 * 4) (by omega)]
    constructor <;> omega
  | a :: b :: c :: rest, h => by
    have ha : a < 256 := h a (by simp)
    have hb : b < 256 := h b (by simp)
    have hc : c < 256 := h c (by simp)
    have hrest : ∀ x ∈ rest, x < 256 := fun x hx => h x (by simp [hx])
    have ih := b64_roundtripList rest hrest
    simp [b64encodeList, b64decodeList,
      b64Char_ne_pad (b % 16 * 4 + c / 64) (by omega),
      b64Char_ne_pad (c % 64) (by omega),
      b64Index_b64Char (a / 4) (by omega),
      b64Index_b64Char (a % 4 * 16 + b / 16) (by omega),
      b64Index_b64Char (b % 16 * 4 + c / 64) (by omega),
      b64Index_b64Char (c % 64) (by omega), ih]
    refine ⟨by omega, by omega, by omega⟩

theorem b64encodeList_length_mod4 : ∀ bs : List Nat,
    (b64encodeList bs).length % 4 = 0
  | [] => rfl
  | [_] => by simp [b64encodeList]
  | [_, _] => by simp [b64encodeList]
  | _ :: _ :: _ :: rest => by
    simp only [b64encodeList, List.length_cons]
    have := b64encodeList_length_mod4 rest
    omega

theorem b64encodeList_alphabet : ∀ bs : List Nat, (∀ x ∈ bs, x < 256) →
    ∀ ch ∈ b64encodeList bs, ch ∈ b64Table ∨ ch = '='
  | [], _ => by simp [b64encodeList]
  | [a], h => by
    have ha : a < 256 := h a (by simp)
    intro ch hch
    simp only [b64encodeList, List.mem_cons, List.not_mem_nil, or_false] at hch
    rcases hch with h1 | h1 | h1 | h1
    · exact Or.inl (h1 ▸ b64Char_mem (a / 4) (by omega))
    · exact Or.inl (h1 ▸ b64Char_mem (a % 4 * 16) (by omega))
    · exact Or.inr h1
    · exact Or.inr h1
  | [a, b], h => by
    have ha : a < 256 := h a (by simp)
    have hb : b < 256 := h b (by simp)
    intro ch hch
    simp only [b64encodeList, List.mem_cons, List.not_mem_nil, or_false] at hch
    rcases hch with h1 | h1 | h1 | h1
    · exact Or.inl (h1 ▸ b64Char_mem (a / 4) (by omega))
    · exact Or.inl (h1 ▸ b64Char_mem (a % 4 * 16 + b / 16) (by omega))
    · exact Or.inl (h1 ▸ b64Char_mem (b % 16 * 4) (by omega))
    · exact Or.inr h1
  | a :: b :: c :: rest, h => by
    have ha : a < 256 := h a (by simp)
    have hb : b < 256 := h b (by simp)
    have hc : c < 256 := h c (by simp)
    have hrest : ∀ x ∈ rest, x < 256 := fun x hx => h x (by simp [hx])
    intro ch hch
    simp only [b64encodeList, List.mem_cons] at hch
    rcases hch with h1 | h1 | h1 | h1 | h1
    · exact Or.inl (h1 ▸ b64Char_mem (a / 4) (by omega))
    · exact Or.inl (h1 ▸ b64Char_mem (a % 4 * 16 + b / 16) (by omega))
    · exact Or.inl (h1 ▸ b64Char_mem (b % 16 * 4 + c / 64) (by omega))
    · exact Or.inl (h1 ▸ b64Char_mem (c % 64) (by omega))
    · exact b64encodeList_alphabet rest hrest ch h1

/-- C4: the base64 encoding used by `_Base64Sign` is padded
standard-alphabet base64 — every signature byte list `pkcs1Sign`
produces has bytes below 256, the encoded string's length is a
multiple of four, every emitted character is in the standard alphabet
or is the `=` pad (in particular never the URL-safe characters `-` or
`_`), and a standard base64 decoder recovers exactly the original
signature bytes. -/
theorem encodeSignature_standard_base64 :
    (∀ (key : RSAKey) (digest sig : List Nat),
      pkcs1Sign key digest = some sig → ∀ b ∈ sig, b < 256) ∧
    (∀ bs : List Nat, (∀ x ∈ bs, x < 256) →
      b64decode (b64encode bs) = bs ∧
      (b64encode bs).data.length % 4 = 0 ∧
      ∀ ch ∈ (b64encode bs).data,
        (ch ∈ b64Table ∨ ch = '=') ∧ ch ≠ '-' ∧ ch ≠ '_') := by
  constructor
  · intro key digest sig hsig b hb
    simp only [pkcs1Sign, Option.map_eq_some'] at hsig
    obtain ⟨em, _, hsig⟩ := hsig
    exact i2osp_bytes_lt _ _ b (hsig ▸ hb)
  · intro bs hbs
    refine ⟨b64_roundtripList bs hbs, b64encodeList_length_mod4 bs, ?_⟩
    intro ch hch
    have hmem := b64encodeList_alphabet bs hbs ch hch
    refine ⟨hmem, ?_, ?_⟩
    · rcases hmem with h | h
      · intro hd; exact dash_not_mem_b64Table.1 (hd ▸ h)
      · subst h; decide
    · rcases hmem with h | h
      · intro hd; exact dash_not_mem_b64Table.2 (hd ▸ h)
      · subst h; decide

theorem encodeSignature_standard_base64_witness :
    pkcs1Sign { n := 256 ^ 29, d := 1 } [] = some emExample ∧
    (∀ b ∈ emExample, b < 256) ∧
    b64decode (b64encode emExample) = emExample ∧
    (b64encode emExample).data.length % 4 = 0 :=
  ⟨by decide,
   encodeSignature_standard_base64.1 { n := 256 ^ 29, d := 1 } [] emExample (by decide),
   (encodeSignature_standard_base64.2 emExample (by decide)).1,
   (encodeSignature_standard_base64.2 emExample (by decide)).2.1⟩

/-! ## URL assembly and verb wrappers -/

/-- C2: `_MakeUrl` returns the endpoint concatenated with the path as
base URL together with a parameter mapping whose keys are exactly
GoogleAccessId, Expires and Signature, bound to the signer identity,
the decimal expiration and the base64 signature of the canonical string
built from the same verb, path, contentMD5 and contentType (when
signing raises, the exception propagates and no URL is produced). -/
theorem makeUrl_spec (s : CloudStorageURLSigner)
    (verb path content_type content_md5 : String) :
    s.MakeUrl verb path content_type content_md5 =
      (s.Base64Sign (s.MakeSignatureString verb path content_md5 content_type)).map
        (fun sig => (s.gcs_api_endpoint ++ path,
          [("GoogleAccessId", s.client_id_email),
           ("Expires", toString s.expiration),
           ("Signature", sig)])) ∧
    (s.MakeUrl verb path content_type content_md5).map (fun r => r.2.map Prod.fst) =
      (s.Base64Sign (s.MakeSignatureString verb path content_md5 content_type)).map
        (fun _ => ["GoogleAccessId", "Expires", "Signature"]) ∧
    (s.MakeUrl verb path content_type content_md5).map
        (fun r => (r.2.lookup "GoogleAccessId", r.2.lookup "Expires",
          r.2.lookup "Signature")) =
      (s.Base64Sign (s.MakeSignatureString verb path content_md5 content_type)).map
        (fun sig => (some s.client_id_email, some (toString s.expiration), some sig)) := by
  refine ⟨rfl, ?_, ?_⟩ <;>
    cases h : s.Base64Sign (s.MakeSignatureString verb path content_md5 content_type) <;>
      simp [CloudStorageURLSigner.MakeUrl, h, List.lookup]

/-- C9: no verb call (successful or failed) mutates the signer's
configuration — each of Get, Put and Delete returns the signer
unchanged, chaining all three on one instance behaves like three
independent calls, and each call's request carries the parameters
signed over the verb-appropriate canonical string built from the same
configuration. -/
theorem verbs_preserve_signer (s : CloudStorageURLSigner)
    (path content_type : String) (data : List Nat) :
    ((s.Get path).2 = s ∧ (s.Put path content_type data).2 = s ∧
      (s.Delete path).2 = s) ∧
    ((((s.Get path).2.Put path content_type data).2).Delete path = s.Delete path) ∧
    (s.Get path).1 =
      (s.Base64Sign (s.MakeSignatureString "GET" path "" "")).map (fun sig =>
        let req : HttpRequest :=
          { method := "GET", url := s.gcs_api_endpoint ++ path,
            params := [("GoogleAccessId", s.client_id_email),
                       ("Expires", toString s.expiration), ("Signature", sig)],
            headers := [], body := [] }
        (req, s.session.send req)) ∧
    (s.Put path content_type data).1 =
      (s.Base64Sign (s.MakeSignatureString "PUT" path (b64encode (md5 data))
          content_type)).map (fun sig =>
        let req : HttpRequest :=
          { method := "PUT", url := s.gcs_api_endpoint ++ path,
            params := [("GoogleAccessId", s.client_id_email),
                       ("Expires", toString s.expiration), ("Signature", sig)],
            headers := [("Content-Type", content_type),
                        ("Content-Length", toString data.length),
                        ("Content-MD5", b64encode (md5 data))],
            body := data }
        (req, s.session.send req)) ∧
    (s.Delete path).1 =
      (s.Base64Sign (s.MakeSignatureString "DELETE" path "" "")).map (fun sig =>
        let req : HttpRequest :=
          { method := "DELETE", url := s.gcs_api_endpoint ++ path,
            params := [("GoogleAccessId", s.client_id_email),
                       ("Expires", toString s.expiration), ("Signature", sig)],
            headers := [], body := [] }
        (req, s.session.send req)) := by
  refine ⟨⟨?_, ?_, ?_⟩, ?_, ?_, ?_, ?_⟩
  · cases h : s.MakeUrl "GET" path "" "" with
    | none => simp [CloudStorageURLSigner.Get, h]
    | some r => cases r; simp [CloudStorageURLSigner.Get, h]
  · cases h : s.MakeUrl "PUT" path content_type (b64encode (md5 data)) with
    | none => simp [CloudStorageURLSigner.Put, h]
    | some r => cases r; simp [CloudStorageURLSigner.Put, h]
  · cases h : s.MakeUrl "DELETE" path "" "" with
    | none => simp [CloudStorageURLSigner.Delete, h]
    | some r => cases r; simp [CloudStorageURLSigner.Delete, h]
  · have h1 : (s.Get path).2 = s := by
      cases h : s.MakeUrl "GET" path "" "" with
      | none => simp [CloudStorageURLSigner.Get, h]
      | some r => cases r; simp [CloudStorageURLSigner.Get, h]
    have h2 : ∀ t : CloudStorageURLSigner, (t.Put path content_type data).2 = t := by
      intro t
      cases h : t.MakeUrl "PUT" path content_type (b64encode (md5 data)) with
      | none => simp [CloudStorageURLSigner.Put, h]
      | some r => cases r; simp [CloudStorageURLSigner.Put, h]
    rw [h1, h2 s]
  · cases h : s.Base64Sign (s.MakeSignatureString "GET" path "" "") <;>
      simp [CloudStorageURLSigner.Get, CloudStorageURLSigner.MakeUrl, h]
  · cases h : s.Base64Sign (s.MakeSignatureString "PUT" path
        (b64encode (md5 data)) content_type) <;>
      simp [CloudStorageURLSigner.Put, CloudStorageURLSigner.MakeUrl, h]
  · cases h : s.Base64Sign (s.MakeSignatureString "DELETE" path "" "") <;>
      simp [CloudStorageURLSigner.Delete, CloudStorageURLSigner.MakeUrl, h]

/-- C10: in every Put call that produces a request, the Content-MD5
header value is byte-identical to the content_md5 field inside the
canonical string that was signed: both are the one computed
`base64(MD5(data))` value, and the Signature parameter is the
signature of the canonical string embedding exactly that value. -/
theorem put_header_md5_matches_signed (s : CloudStorageURLSigner)
    (path content_type : String) (data : List Nat) :
    (s.Put path content_type data).1.map
        (fun rr => (rr.1.headers.lookup "Content-MD5", rr.1.params.lookup "Signature")) =
      (s.Base64Sign (s.MakeSignatureString "PUT" path (b64encode (md5 data))
          content_type)).map
        (fun sig => (some (b64encode (md5 data)), some sig)) := by
  cases h : s.Base64Sign (s.MakeSignatureString "PUT" path (b64encode (md5 data))
      content_type) <;>
    simp [CloudStorageURLSigner.Put, CloudStorageURLSigner.MakeUrl, h, List.lookup]

/-! ## Integer / byte-string conversion lemmas -/

theorem i2osp_length (k : Nat) : ∀ v : Nat, (i2osp k v).length = k := by
  induction k with
  | zero => intro v; rfl
  | succ k ih => intro v; simp [i2osp, ih]

theorem os2ip_append (xs : List Nat) (b : Nat) :
    os2ip (xs ++ [b]) = os2ip xs * 256 + b := by
  unfold os2ip
  rw [List.foldl_append]
  rfl

theorem os2ip_i2osp (k : Nat) : ∀ v : Nat, v < 256 ^ k → os2ip (i2osp k v) = v := by
  induction k with
  | zero =>
    intro v hv
    have : v = 0 := by simpa using hv
    simp [this, i2osp, os2ip]
  | succ k ih =>
    intro v hv
    have hpow : 256 ^ (k + 1) = 256 ^ k * 256 := pow_succ 256 k
    simp only [i2osp]
    rw [os2ip_append, ih (v / 256) (by omega)]
    omega

theorem os2ip_lt (bs : List Nat) (h : ∀ b ∈ bs, b < 256) :
    os2ip bs < 256 ^ bs.length := by
  induction bs using List.reverseRecOn with
  | nil => simp [os2ip]
  | append_singleton xs b ih =>
    have hb : b < 256 := h b (by simp)
    have hxs := ih (fun x hx => h x (by simp [hx]))
    rw [os2ip_append]
    rw [List.length_append, List.length_singleton, pow_add, pow_one]
    omega

theorem i2osp_os2ip (bs : List Nat) (h : ∀ b ∈ bs, b < 256) :
    i2osp bs.length (os2ip bs) = bs := by
  induction bs using List.reverseRecOn with
  | nil => rfl
  | append_singleton xs b ih =>
    have hb : b < 256 := h b (by simp)
    have hxs : ∀ x ∈ xs, x < 256 := fun x hx => h x (by simp [hx])
    rw [os2ip_append, List.length_append, List.length_singleton]
    simp only [i2osp]
    have hdiv : (os2ip xs * 256 + b) / 256 = os2ip xs := by omega
    have hmod : (os2ip xs * 256 + b) % 256 = b := by omega
    rw [hdiv, hmod, ih hxs]

theorem byteLenAux_spec : ∀ fuel n : Nat, n ≤ fuel → 1 ≤ n →
    256 ^ (byteLenAux fuel n - 1) ≤ n ∧ n < 256 ^ byteLenAux fuel n := by
  intro fuel
  induction fuel with
  | zero => intro n h1 h2; omega
  | succ fuel ih =>
    intro n h1 h2
    simp only [byteLenAux]
    rw [if_neg (by omega)]
    by_cases hq : n / 256 = 0
    · have hz : byteLenAux fuel 0 = 0 := by cases fuel <;> simp [byteLenAux]
      rw [hq, hz]
      constructor
      · simpa using h2
      · have hlt : n < 256 := by omega
        simpa using hlt
    · have hrec := ih (n / 256) (by omega) (by omega)
      have hL : 1 ≤ byteLenAux fuel (n / 256) := by
        by_contra hL0
        have hz : byteLenAux fuel (n / 256) = 0 := by omega
        rw [hz] at hrec
        simp at hrec
        omega
      constructor
      · simp only [Nat.add_sub_cancel]
        have hpow : 256 ^ byteLenAux fuel (n / 256) =
            256 ^ (byteLenAux fuel (n / 256) - 1) * 256 := by
          conv_lhs => rw [show byteLenAux fuel (n / 256) =
            (byteLenAux fuel (n / 256) - 1) + 1 by omega]
          rw [pow_succ]
        rw [hpow]
        calc 256 ^ (byteLenAux fuel (n / 256) - 1) * 256 ≤ n / 256 * 256 :=
              Nat.mul_le_mul_right 256 hrec.1
          _ ≤ n := Nat.div_mul_le_self n 256
      · rw [pow_succ]
        have := hrec.2
        omega

theorem byteLen_bounds (n : Nat) (h : 1 ≤ n) :
    256 ^ (byteLen n - 1) ≤ n ∧ n < 256 ^ byteLen n :=
  byteLenAux_spec n n le_rfl h

/-! ## RSA lemmas -/

theorem pow_cycle_prime (p : Nat) (hp : p.Prime) (k x : Nat) :
    x ^ (k * (p - 1) + 1) ≡ x [MOD p] := by
  induction k with
  | zero => simpa using Nat.ModEq.refl x
  | succ k ih =>
    have hrw : (k + 1) * (p - 1) + 1 = k * (p - 1) + 1 + (p - 1) := by ring
    rw [hrw, pow_add]
    by_cases hdvd : p ∣ x
    · have h1 : x ^ (k * (p - 1) + 1) * x ^ (p - 1) ≡ 0 [MOD p] :=
        (Nat.modEq_zero_iff_dvd).mpr
          (Dvd.dvd.mul_right (dvd_pow hdvd (by omega)) _)
      have h2 : x ≡ 0 [MOD p] := (Nat.modEq_zero_iff_dvd).mpr hdvd
      exact h1.trans h2.symm
    · have hco : Nat.Coprime x p := ((Nat.Prime.coprime_iff_not_dvd hp).mpr hdvd).symm
      have hf : x ^ (p - 1) ≡ 1 [MOD p] := by
        have := Nat.ModEq.pow_totient hco
        rwa [Nat.totient_prime hp] at this
      calc x ^ (k * (p - 1) + 1) * x ^ (p - 1)
      _ ≡ x * 1 [MOD p] := Nat.ModEq.mul ih hf
      _ = x := by ring

theorem rsa_valid_of_primes (p q e d : Nat) (hp : p.Prime) (hq : q.Prime)
    (hne : p ≠ q) (hed : e * d ≡ 1 [MOD (p - 1) * (q - 1)]) :
    ∀ m : Nat, m ^ (e * d) ≡ m [MOD p * q] := by
  intro m
  have hp2 := hp.two_le
  have hq2 := hq.two_le
  have hM2 : 2 ≤ (p - 1) * (q - 1) := by
    by_cases hp3 : p = 2
    · have hq3 : 3 ≤ q := by omega
      calc 2 ≤ q - 1 := by omega
        _ = (p - 1) * (q - 1) := by rw [hp3]; ring
    · by_cases hq3 : q = 2
      · have hp4 : 3 ≤ p := by omega
        calc 2 ≤ p - 1 := by omega
          _ = (p - 1) * (q - 1) := by rw [hq3]; ring
      · calc 2 ≤ 2 * 2 := by norm_num
          _ ≤ (p - 1) * (q - 1) := Nat.mul_le_mul (by omega) (by omega)
  have h1mod : (1 : Nat) % ((p - 1) * (q - 1)) = 1 := Nat.mod_eq_of_lt (by omega)
  have hmod : e * d % ((p - 1) * (q - 1)) = 1 % ((p - 1) * (q - 1)) := hed
  have h1 : e * d % ((p - 1) * (q - 1)) = 1 := hmod.trans h1mod
  have hdm := Nat.div_add_mod (e * d) ((p - 1) * (q - 1))
  rw [h1] at hdm
  obtain ⟨K, hK⟩ : ∃ K, e * d = K * ((p - 1) * (q - 1)) + 1 := by
    refine ⟨e * d / ((p - 1) * (q - 1)), ?_⟩
    rw [Nat.mul_comm ((p - 1) * (q - 1)) (e * d / ((p - 1) * (q - 1)))] at hdm
    exact hdm.symm
  have hmodp : m ^ (e * d) ≡ m [MOD p] := by
    have hrw : e * d = K * (q - 1) * (p - 1) + 1 := by rw [hK]; ring
    rw [hrw]
    exact pow_cycle_prime p hp _ m
  have hmodq : m ^ (e * d) ≡ m [MOD q] := by
    have hrw : e * d = K * (p - 1) * (q - 1) + 1 := by rw [hK]; ring
    rw [hrw]
    exact pow_cycle_prime q hq _ m
  have hco : Nat.Coprime p q := (Nat.coprime_primes hp hq).mpr hne
  exact (Nat.modEq_and_modEq_iff_modEq_mul hco).mp ⟨hmodp, hmodq⟩

theorem sha256DigestInfo_bytes_lt : ∀ b ∈ sha256DigestInfo, b < 256 := by decide

theorem emsaEncode_props (digest : List Nat) (k : Nat) (em : List Nat)
    (hd : ∀ b ∈ digest, b < 256) (h : emsaEncode digest k = some em) :
    em.length = k ∧ (∀ b ∈ em, b < 256) ∧ os2ip em < 256 ^ (k - 1) := by
  have hdl : sha256DigestInfo.length = 19 := rfl
  simp only [emsaEncode] at h
  split at h
  · exact absurd h (by simp)
  · rename_i hge
    simp only [Option.some.injEq] at h
    subst h
    simp only [List.length_append, hdl] at hge
    refine ⟨?_, ?_, ?_⟩
    · simp only [List.length_cons, List.length_append, List.length_replicate, hdl]
      omega
    · intro b hb
      simp only [List.mem_cons, List.mem_append, List.mem_replicate] at hb
      rcases hb with rfl | rfl | ⟨_, rfl⟩ | rfl | hb | hb
      · omega
      · omega
      · omega
      · omega
      · exact sha256DigestInfo_bytes_lt b hb
      · exact hd b hb
    · have hz : os2ip (0 :: 1 :: (List.replicate (k - (sha256DigestInfo ++ digest).length - 3) 255 ++
          0 :: (sha256DigestInfo ++ digest))) =
          os2ip (1 :: (List.replicate (k - (sha256DigestInfo ++ digest).length - 3) 255 ++
          0 :: (sha256DigestInfo ++ digest))) := rfl
      rw [hz]
      have hbytes : ∀ b ∈ (1 :: (List.replicate (k - (sha256DigestInfo ++ digest).length - 3) 255 ++
          0 :: (sha256DigestInfo ++ digest))), b < 256 := by
        intro b hb
        simp only [List.mem_cons, List.mem_append, List.mem_replicate] at hb
        rcases hb with rfl | ⟨_, rfl⟩ | rfl | hb | hb
        · omega
        · omega
        · omega
        · exact sha256DigestInfo_bytes_lt b hb
        · exact hd b hb
      have hlt := os2ip_lt _ hbytes
      have hlen2 : (1 :: (List.replicate (k - (sha256DigestInfo ++ digest).length - 3) 255 ++
          0 :: (sha256DigestInfo ++ digest))).length = k - 1 := by
        simp only [List.length_cons, List.length_append, List.length_replicate, hdl]
        omega
      rwa [hlen2] at hlt

/-- C6: the signing pipeline is deterministic — two signers sharing a
key produce byte-identical `_Base64Sign` outputs for the same
plaintext (PKCS#1 v1.5 uses no randomness) — and its signatures
verify: a valid RSA key pair (in particular any pair built from two
distinct primes with exponents inverse modulo `(p-1)(q-1)`) makes
`rsaVerify` accept exactly the signature `pkcs1Sign` produced. -/
theorem base64Sign_deterministic_and_verifiable :
    (∀ (s1 s2 : CloudStorageURLSigner) (plaintext : String),
      s1.key = s2.key → s1.Base64Sign plaintext = s2.Base64Sign plaintext) ∧
    (∀ p q e d : Nat, p.Prime → q.Prime → p ≠ q →
      e * d ≡ 1 [MOD (p - 1) * (q - 1)] →
      ∀ m : Nat, m < p * q → m ^ (d * e) % (p * q) = m % (p * q)) ∧
    (∀ (n e d : Nat) (digest sig : List Nat), 1 ≤ n →
      (∀ b ∈ digest, b < 256) →
      (∀ m : Nat, m < n → m ^ (d * e) % n = m % n) →
      pkcs1Sign { n := n, d := d } digest = some sig →
      rsaVerify n e digest sig = true) := by
  refine ⟨?_, ?_, ?_⟩
  · intro s1 s2 plaintext hkey
    unfold CloudStorageURLSigner.Base64Sign
    rw [hkey]
  · intro p q e d hp hq hne hed m _
    have := rsa_valid_of_primes p q e d hp hq hne hed m
    rwa [Nat.mul_comm e d] at this
  · intro n e d digest sig h1 hd hvalid hsig
    simp only [pkcs1Sign, Option.map_eq_some'] at hsig
    obtain ⟨em, hem, hsigeq⟩ := hsig
    obtain ⟨hlen, hbytes, hlt⟩ := emsaEncode_props digest (byteLen n) em hd hem
    have hnb := byteLen_bounds n h1
    have hmv : os2ip em < n := lt_of_lt_of_le hlt hnb.1
    simp only [rsaVerify, hem]
    have hsiglt : os2ip em ^ d % n < 256 ^ byteLen n :=
      lt_of_lt_of_le (Nat.mod_lt _ (by omega)) (le_of_lt hnb.2)
    have hos : os2ip sig = os2ip em ^ d % n := by
      rw [← hsigeq]
      exact os2ip_i2osp (byteLen n) (os2ip em ^ d % n) hsiglt
    rw [hos]
    have hpow : (os2ip em ^ d % n) ^ e % n = os2ip em ^ (d * e) % n := by
      have hcong : (os2ip em ^ d % n) ^ e ≡ (os2ip em ^ d) ^ e [MOD n] :=
        (Nat.mod_modEq (os2ip em ^ d) n).pow e
      have hmul : (os2ip em ^ d) ^ e = os2ip em ^ (d * e) := (pow_mul _ d e).symm
      rw [← hmul]
      exact hcong
    rw [hpow, hvalid (os2ip em) hmv, Nat.mod_eq_of_lt hmv]
    rw [← hlen, i2osp_os2ip em hbytes]
    simp

theorem base64Sign_deterministic_and_verifiable_witness :
    exampleSigner.Base64Sign "GET\n\n\n1893456000\n/bucket/object.txt" =
      exampleSigner.Base64Sign "GET\n\n\n1893456000\n/bucket/object.txt" ∧
    7 ^ (27 * 3) % (5 * 11) = 7 % (5 * 11) ∧
    rsaVerify (256 ^ 29) 1 [] emExample = true :=
  ⟨base64Sign_deterministic_and_verifiable.1 exampleSigner exampleSigner
      "GET\n\n\n1893456000\n/bucket/object.txt" rfl,
   base64Sign_deterministic_and_verifiable.2.1 5 11 3 27 (by norm_num) (by norm_num)
     (by decide) (by decide) 7 (by decide),
   base64Sign_deterministic_and_verifiable.2.2 (256 ^ 29) 1 1 [] emExample
     (by norm_num) (by simp) (fun m hm => by simp) (by decide)⟩

/-! ## MD5 digest lemmas -/

theorem digest_foldr_bytes_lt (ws : List Nat) :
    ∀ x ∈ ws.foldr (fun w acc => (i2osp 4 w).reverse ++ acc) [], x < 256 := by
  induction ws with
  | nil => simp
  | cons w ws ih =>
    intro x hx
    simp only [List.foldr_cons] at hx
    rcases List.mem_append.mp hx with hx | hx
    · exact i2osp_bytes_lt 4 w x (List.mem_reverse.mp hx)
    · exact ih x hx

theorem md5_bytes_lt (msg : List Nat) : ∀ x ∈ md5 msg, x < 256 :=
  digest_foldr_bytes_lt _

theorem b64encode_inj (d1 d2 : List Nat) (h1 : ∀ x ∈ d1, x < 256)
    (h2 : ∀ x ∈ d2, x < 256) (he : b64encode d1 = b64encode d2) : d1 = d2 := by
  have hdata : b64encodeList d1 = b64encodeList d2 := congrArg String.data he
  have hdec := congrArg b64decodeList hdata
  rwa [b64_roundtripList d1 h1, b64_roundtripList d2 h2] at hdec

/-- C3: `Put(path, contentType, data)` computes contentMD5 as the
padded standard base64 encoding of the MD5 digest of `data`, includes
that one value both in the signed canonical string and in the request
headers, and sends Content-Type = contentType, Content-Length = the
decimal string of the data length and Content-MD5 = contentMD5 with
the body equal to `data`; consequently any change to `data` that
changes its MD5 digest changes the contentMD5 used. -/
theorem put_content_md5_spec :
    (∀ (s : CloudStorageURLSigner) (path content_type : String) (data : List Nat),
      (s.Put path content_type data).1 =
        (s.Base64Sign (s.MakeSignatureString "PUT" path (b64encode (md5 data))
            content_type)).map (fun sig =>
          let req : HttpRequest :=
            { method := "PUT", url := s.gcs_api_endpoint ++ path,
              params := [("GoogleAccessId", s.client_id_email),
                         ("Expires", toString s.expiration), ("Signature", sig)],
              headers := [("Content-Type", content_type),
                          ("Content-Length", toString data.length),
                          ("Content-MD5", b64encode (md5 data))],
              body := data }
          (req, s.session.send req))) ∧
    (∀ d1 d2 : List Nat, md5 d1 ≠ md5 d2 →
      b64encode (md5 d1) ≠ b64encode (md5 d2)) := by
  constructor
  · intro s path content_type data
    cases h : s.Base64Sign (s.MakeSignatureString "PUT" path (b64encode (md5 data))
        content_type) <;>
      simp [CloudStorageURLSigner.Put, CloudStorageURLSigner.MakeUrl, h]
  · intro d1 d2 hne he
    exact hne (b64encode_inj _ _ (md5_bytes_lt d1) (md5_bytes_lt d2) he)

set_option maxRecDepth 10000 in
theorem put_content_md5_spec_witness :
    md5 (strBytes "blah blah") ≠ md5 (strBytes "blah blai") ∧
    b64encode (md5 (strBytes "blah blah")) ≠ b64encode (md5 (strBytes "blah blai")) :=
  ⟨by decide,
   put_content_md5_spec.2 (strBytes "blah blah") (strBytes "blah blai") (by decide)⟩
